import Mathlib

/-!
Verification development for the PBChatbot visual (src/src/visual.ts).

The model is a shallow embedding of the response-acquisition pipeline of
the `Visual` class: the SSE stream decoder (`handleStreamResponse`), the
JSON response classifier inside `callApi`, the retry controller
(`callApiWithRetry`), request-header construction, the simulated typing
playback (`simulateTypingEffect`) and the settings update (`update`).

JavaScript strings are modelled as Lean `String`; the per-character
operations the source relies on (`split`, `trim`, `startsWith`, `slice`,
`includes`) are implemented here over `List Char` so that every
definition evaluates inside the kernel.
-/

/-! ## JavaScript string primitives -/

/-- Model of the whitespace class used by `String.prototype.trim` /
`Char.isWhitespace` for the characters that can actually occur in the
decoded bodies handled by the source (space, tab, CR, LF). -/
def jsIsSpace (c : Char) : Bool :=
  c = ' ' || c = '\t' || c = '\n' || c = '\r'

/-- `s.split(sep)` of JavaScript at the character level: splits at every
separator character and keeps empty pieces, so that `"a\n\n".split('\n')`
gives `["a", "", ""]`. -/
def charsSplitPred (p : Char → Bool) : List Char → List (List Char)
  | [] => [[]]
  | c :: cs =>
    if p c then [] :: charsSplitPred p cs
    else
      match charsSplitPred p cs with
      | [] => [[c]]
      | piece :: pieces => (c :: piece) :: pieces

/-- JavaScript `split` on one separator character. -/
def charsSplitOn (sep : Char) (cs : List Char) : List (List Char) :=
  charsSplitPred (· = sep) cs

/-- JavaScript `String.prototype.trim` over the character list. -/
def charsTrim (cs : List Char) : List Char :=
  ((cs.dropWhile jsIsSpace).reverse.dropWhile jsIsSpace).reverse

/-- Whether `p` is a leading segment of `s` (JavaScript `startsWith`). -/
def charsLeads : List Char → List Char → Bool
  | [], _ => true
  | _ :: _, [] => false
  | a :: as, b :: bs => a = b && charsLeads as bs

/-- Whether `sub` occurs contiguously inside `s`. -/
def charsHasSub (sub : List Char) : List Char → Bool
  | [] => charsLeads sub []
  | c :: rest => charsLeads sub (c :: rest) || charsHasSub sub rest

/-- JavaScript `String.prototype.includes`. -/
def strIncludes (s sub : String) : Bool :=
  charsHasSub sub.toList s.toList

/-! ## JSON value model -/

/-- A parsed JSON value, as produced by `JSON.parse`. -/
inductive JsonVal where
  | jnull
  | jbool (b : Bool)
  | jnum (n : Int)
  | jstr (s : String)
  | jarr (elems : List JsonVal)
  | jobj (fields : List (String × JsonVal))

/-- Property access `v.key` (JavaScript semantics: `undefined`, i.e.
`none`, when the value is not an object or the key is absent). -/
def jsonGet : JsonVal → String → Option JsonVal
  | .jobj fields, k => lookupField k fields
  | _, _ => none
where
  lookupField (k : String) : List (String × JsonVal) → Option JsonVal
    | [] => none
    | (k', v) :: rest => if k = k' then some v else lookupField k rest

/-- JavaScript truthiness of a JSON value. -/
def jsTruthy : JsonVal → Bool
  | .jnull => false
  | .jbool b => b
  | .jnum n => n ≠ 0
  | .jstr s => s ≠ ""
  | .jarr _ => true
  | .jobj _ => true

/-- The value of a JavaScript `a || b || ...` chain over optional JSON
values: the first present truthy candidate. -/
def firstTruthy : List (Option JsonVal) → Option JsonVal
  | [] => none
  | none :: rest => firstTruthy rest
  | some v :: rest => if jsTruthy v then some v else firstTruthy rest

mutual

/-- JavaScript string coercion `String(v)` (null renders as the empty
string inside an array join, as in JavaScript). -/
def jsToString : JsonVal → String
  | .jnull => "null"
  | .jbool true => "true"
  | .jbool false => "false"
  | .jnum n => toString n
  | .jstr s => s
  | .jarr l => String.intercalate "," (jsToStringArr l)
  | .jobj _ => "[object Object]"

/-- The pieces of the JavaScript `Array.prototype.join(",")` coercion. -/
def jsToStringArr : List JsonVal → List String
  | [] => []
  | .jnull :: rest => "" :: jsToStringArr rest
  | v :: rest => jsToString v :: jsToStringArr rest

end

/-- Escapes a string body the way `JSON.stringify` does for the
characters occurring here. -/
def jsonEscape (s : String) : String :=
  String.mk (s.toList.flatMap fun c =>
    if c = '"' then ['\\', '"']
    else if c = '\\' then ['\\', '\\']
    else if c = '\n' then ['\\', 'n']
    else if c = '\t' then ['\\', 't']
    else if c = '\r' then ['\\', 'r']
    else [c])

mutual

/-- `JSON.stringify` of a value. -/
def jsonStringify : JsonVal → String
  | .jnull => "null"
  | .jbool true => "true"
  | .jbool false => "false"
  | .jnum n => toString n
  | .jstr s => "\"" ++ jsonEscape s ++ "\""
  | .jarr l => "[" ++ String.intercalate "," (jsonStringifyArr l) ++ "]"
  | .jobj fields => "\x7b" ++ String.intercalate "," (jsonStringifyFields fields) ++ "\x7d"

/-- `JSON.stringify` of the elements of an array. -/
def jsonStringifyArr : List JsonVal → List String
  | [] => []
  | v :: rest => jsonStringify v :: jsonStringifyArr rest

/-- `JSON.stringify` of the members of an object. -/
def jsonStringifyFields : List (String × JsonVal) → List String
  | [] => []
  | (k, v) :: rest => ("\"" ++ jsonEscape k ++ "\":" ++ jsonStringify v) :: jsonStringifyFields rest

end

/-! ## JSON parser (model of `JSON.parse`)

Recursive-descent parser over the character list, fuelled by the input
length.  It covers the JSON fragment exchanged by this program: objects,
arrays, strings (with the basic escapes), integer numbers, booleans and
null.  A body outside this fragment makes `JSON.parse` of the model fail,
matching the source's catch-and-treat-as-text paths for non-JSON bodies. -/

/-- Skip JSON insignificant whitespace. -/
def skipJsonWs : List Char → List Char
  | [] => []
  | c :: cs => if jsIsSpace c then skipJsonWs cs else c :: cs

/-- Parse the body of a JSON string after the opening quote. -/
def parseStringBody : List Char → List Char → Option (String × List Char)
  | [], _ => none
  | '"' :: rest, acc => some (String.mk acc.reverse, rest)
  | '\\' :: e :: rest, acc =>
    if e = '"' then parseStringBody rest ('"' :: acc)
    else if e = '\\' then parseStringBody rest ('\\' :: acc)
    else if e = '/' then parseStringBody rest ('/' :: acc)
    else if e = 'n' then parseStringBody rest ('\n' :: acc)
    else if e = 't' then parseStringBody rest ('\t' :: acc)
    else if e = 'r' then parseStringBody rest ('\r' :: acc)
    else none
  | '\\' :: [], _ => none
  | c :: rest, acc => parseStringBody rest (c :: acc)

/-- Parse a run of decimal digits into a natural number. -/
def parseDigits : List Char → Nat → Nat → Option (Nat × List Char)
  | [], 0, _ => none
  | [], _ + 1, acc => some (acc, [])
  | c :: rest, seen, acc =>
    if c.isDigit then parseDigits rest (seen + 1) (acc * 10 + (c.toNat - '0'.toNat))
    else match seen with
      | 0 => none
      | _ + 1 => some (acc, c :: rest)

mutual

/-- Parse one JSON value. -/
def parseJsonValue : Nat → List Char → Option (JsonVal × List Char)
  | 0, _ => none
  | fuel + 1, cs =>
    match skipJsonWs cs with
    | [] => none
    | c :: rest =>
      if c = '\x7b' then parseJsonMembers fuel (skipJsonWs rest) []
      else if c = '[' then parseJsonElems fuel (skipJsonWs rest) []
      else if c = '"' then
        match parseStringBody rest [] with
        | none => none
        | some (s, rest') => some (.jstr s, rest')
      else if c = 't' then
        match rest with
        | 'r' :: 'u' :: 'e' :: rest' => some (.jbool true, rest')
        | _ => none
      else if c = 'f' then
        match rest with
        | 'a' :: 'l' :: 's' :: 'e' :: rest' => some (.jbool false, rest')
        | _ => none
      else if c = 'n' then
        match rest with
        | 'u' :: 'l' :: 'l' :: rest' => some (.jnull, rest')
        | _ => none
      else if c = '-' then
        match parseDigits rest 0 0 with
        | none => none
        | some (n, rest') => some (.jnum (-(n : Int)), rest')
      else if c.isDigit then
        match parseDigits (c :: rest) 0 0 with
        | none => none
        | some (n, rest') => some (.jnum (n : Int), rest')
      else none

/-- Parse the members of a JSON object after the opening brace. -/
def parseJsonMembers : Nat → List Char → List (String × JsonVal) → Option (JsonVal × List Char)
  | 0, _, _ => none
  | fuel + 1, cs, acc =>
    match cs with
    | '\x7d' :: rest => some (.jobj acc.reverse, rest)
    | '"' :: rest =>
      match parseStringBody rest [] with
      | none => none
      | some (k, rest') =>
        match skipJsonWs rest' with
        | ':' :: rest'' =>
          match parseJsonValue fuel rest'' with
          | none => none
          | some (v, rest3) =>
            match skipJsonWs rest3 with
            | ',' :: rest4 => parseJsonMembers fuel (skipJsonWs rest4) ((k, v) :: acc)
            | '\x7d' :: rest4 => some (.jobj ((k, v) :: acc).reverse, rest4)
            | _ => none
        | _ => none
    | _ => none

/-- Parse the elements of a JSON array after the opening bracket. -/
def parseJsonElems : Nat → List Char → List JsonVal → Option (JsonVal × List Char)
  | 0, _, _ => none
  | fuel + 1, cs, acc =>
    match cs with
    | ']' :: rest => some (.jarr acc.reverse, rest)
    | _ =>
      match parseJsonValue fuel cs with
      | none => none
      | some (v, rest) =>
        match skipJsonWs rest with
        | ',' :: rest' => parseJsonElems fuel (skipJsonWs rest') (v :: acc)
        | ']' :: rest' => some (.jarr (v :: acc).reverse, rest')
        | _ => none

end

/-- `JSON.parse` over a character list: the whole input must be one value. -/
def parseJsonChars (cs : List Char) : Option JsonVal :=
  match parseJsonValue (cs.length + 1) cs with
  | none => none
  | some (v, rest) => if skipJsonWs rest = [] then some v else none

/-- `JSON.parse` of a string, `none` when it throws. -/
def parseJson (s : String) : Option JsonVal :=
  parseJsonChars s.toList

/-! ## Stream decoder (`handleStreamResponse`, visual.ts lines 112-197)

The decoder consumes the body as text chunks, keeps the partial trailing
line in `buffer`, and for every complete `data: ` line appends the
extracted fragment to `fullResponse`, reporting the cumulative text via
`updateMessageWithTyping` (recorded here in `fragments`). -/

/-- The mutable state of the stream-decoding loop. -/
structure StreamState where
  buffer : List Char
  fullResponse : String
  fragments : List String

/-- The extraction chain
`parsed.choices?.[0]?.delta?.content || parsed.content || parsed.text || parsed.message`
(visual.ts lines 158-161).  Optional chaining maps absent or non-object
steps to `undefined`; indexing `[0]` reads an array head, an object key
`"0"`, or a string's first character. -/
def jsIndex0 : JsonVal → Option JsonVal
  | .jarr l => l.head?
  | .jobj fields => jsonGet (.jobj fields) "0"
  | .jstr s => s.toList.head?.map fun c => .jstr (String.mk [c])
  | _ => none

/-- `parsed.choices?.[0]?.delta?.content`. -/
def choicesDeltaContent (parsed : JsonVal) : Option JsonVal :=
  (jsonGet parsed "choices").bind fun c =>
    (jsIndex0 c).bind fun el =>
      (jsonGet el "delta").bind fun d => jsonGet d "content"

/-- The whole content chain of the stream decoder. -/
def extractStreamContent (parsed : JsonVal) : Option JsonVal :=
  firstTruthy [choicesDeltaContent parsed, jsonGet parsed "content",
    jsonGet parsed "text", jsonGet parsed "message"]

/-- One pass over the complete lines of a chunk (the inner `for` loop of
visual.ts lines 144-185).  The `[DONE]` payload executes `break`, which
leaves this loop only: remaining lines of the current chunk are skipped,
but the enclosing read loop continues with the next chunk. -/
def processLines : StreamState → List (List Char) → StreamState
  | st, [] => st
  | st, line :: rest =>
    if charsTrim line = [] then processLines st rest
    else if charsLeads "data: ".toList line then
      let data := line.drop 6
      if data = "[DONE]".toList then st
      else
        let st' :=
          match parseJsonChars data with
          | some parsed =>
            match extractStreamContent parsed with
            | some v =>
              let full := st.fullResponse ++ jsToString v
              { st with fullResponse := full, fragments := st.fragments ++ [full] }
            | none => st
          | none =>
            if charsTrim data = [] then st
            else
              let full := st.fullResponse ++ String.mk data
              { st with fullResponse := full, fragments := st.fragments ++ [full] }
        processLines st' rest
    else processLines st rest

/-- One iteration of the read loop: decode a chunk, split the buffered
text on newlines, keep the trailing partial line, process the rest. -/
def processChunk (st : StreamState) (chunk : String) : StreamState :=
  let lines := charsSplitOn '\n' (st.buffer ++ chunk.toList)
  processLines { st with buffer := lines.getLastD [] } lines.dropLast

/-- `handleStreamResponse` on a body delivered as a list of text chunks:
returns the final text (`fullResponse || "收到空响应"`) together with the
sequence of cumulative fragment callbacks. -/
def handleStreamResponse (chunks : List String) : String × List String :=
  let st := chunks.foldl processChunk ⟨[], "", []⟩
  (if st.fullResponse = "" then "收到空响应" else st.fullResponse, st.fragments)

/-! ## JSON response classifier (`callApi`, visual.ts lines 371-418) -/

/-- Outcome of classifying a parsed JSON body: resolved reply text, or a
thrown application-level error (`ApiError`). -/
inductive ClassifyResult where
  | success (text : String)
  | apiError (message : String)
  deriving DecidableEq

/-- Strict equality test `v === 200`. -/
def isNum200 : Option JsonVal → Bool
  | some (.jnum 200) => true
  | _ => false

/-- Strict equality test `v === true`. -/
def isTrueVal : Option JsonVal → Bool
  | some (.jbool true) => true
  | _ => false

/-- `data.statusCode === 200 || data.status === 200 || data.success === true`. -/
def jsonSignalsSuccess (data : JsonVal) : Bool :=
  isNum200 (jsonGet data "statusCode") || isNum200 (jsonGet data "status") ||
    isTrueVal (jsonGet data "success")

/-- `data.error || data.statusCode !== 200` as a boolean condition. -/
def jsonSignalsError (data : JsonVal) : Bool :=
  (match jsonGet data "error" with
   | some v => jsTruthy v
   | none => false) || !isNum200 (jsonGet data "statusCode")

/-- `data.response || data.message || data.reply || data.content || data.text`. -/
def replyCandidates (data : JsonVal) : Option JsonVal :=
  firstTruthy [jsonGet data "response", jsonGet data "message", jsonGet data "reply",
    jsonGet data "content", jsonGet data "text"]

/-- `data.error || data.message || \`API返回错误状态: $\x7bdata.statusCode || data.status\x7d\``. -/
def classifyErrorMessage (data : JsonVal) : String :=
  match firstTruthy [jsonGet data "error", jsonGet data "message"] with
  | some v => jsToString v
  | none =>
    "API返回错误状态: " ++
      match (match jsonGet data "statusCode" with
             | some v => if jsTruthy v then some v else jsonGet data "status"
             | none => jsonGet data "status") with
      | some v => jsToString v
      | none => "undefined"

/-- The three-branch classification of a parsed JSON body
(visual.ts lines 393-418), translated branch by branch. -/
def classifyJson (data : JsonVal) : ClassifyResult :=
  if jsonSignalsSuccess data then
    .success
      (match replyCandidates data with
       | some v => jsToString v
       | none => "收到回复，但内容为空")
  else if jsonSignalsError data then
    .apiError (classifyErrorMessage data)
  else
    .success
      (match replyCandidates data with
       | some v => jsToString v
       | none => jsonStringify data)

/-! ## Retry controller (`callApiWithRetry`, visual.ts lines 276-306)

Errors are modelled by their message string, because the retry decision
in the source is a substring test on `error.message`.  The transport is a
function from the attempt number (starting at 1) to that attempt's
outcome. -/

/-- `error.message.includes("Failed to fetch") || error.message.includes("网络连接失败")`. -/
def isRetryableMsg (msg : String) : Bool :=
  strIncludes msg "Failed to fetch" || strIncludes msg "网络连接失败"

/-- `Math.min(1000 * Math.pow(2, attempt - 1), 5000)`: the backoff slept
after failed attempt `attempt`, i.e. before attempt `attempt + 1`. -/
def backoffDelay (attempt : Nat) : Nat :=
  min (1000 * 2 ^ (attempt - 1)) 5000

/-- Observable trace of one `callApiWithRetry` run: how often the
transport was invoked, the backoff delays slept between attempts, and the
terminal outcome (`Except.error none` models the `throw lastError` with
`lastError` never assigned, reachable only for `maxRetries = 0`). -/
structure RetryTrace where
  invocations : Nat
  delays : List Nat
  outcome : Except (Option String) String

/-- The `for (let attempt = 1; attempt <= maxRetries; attempt++)` loop.
The fuel equals the number of remaining loop iterations, so the
recursion is structural and the run fully evaluates. -/
def callApiWithRetryAux (transport : Nat → Except String String) (maxRetries : Nat) :
    Nat → Nat → Nat → List Nat → Option String → RetryTrace
  | 0, _, invs, delaysRev, lastErr => ⟨invs, delaysRev.reverse, .error lastErr⟩
  | fuel + 1, attempt, invs, delaysRev, _ =>
    match transport attempt with
    | .ok s => ⟨invs + 1, delaysRev.reverse, .ok s⟩
    | .error e =>
      if isRetryableMsg e ∧ attempt < maxRetries then
        callApiWithRetryAux transport maxRetries fuel (attempt + 1) (invs + 1)
          (backoffDelay attempt :: delaysRev) (some e)
      else ⟨invs + 1, delaysRev.reverse, .error (some e)⟩

/-- `callApiWithRetry(message, maxRetries)`: run the attempt loop from
attempt 1.  The source default for `maxRetries` is 3. -/
def callApiWithRetry (transport : Nat → Except String String) (maxRetries : Nat) : RetryTrace :=
  callApiWithRetryAux transport maxRetries maxRetries 1 0 [] none

/-! ## Request building and `callApi` (visual.ts lines 308-445) -/

/-- The `apiSettings` record of the visual. -/
structure ApiSettings where
  apiUrl : String
  apiKey : String
  authType : String
  deriving DecidableEq

/-- Header construction of `callApi` (visual.ts lines 313-325): base
headers plus the auth header chosen by `authType`, added only when
`authType !== "None"` and the key is non-empty (truthy). -/
def buildHeaders (s : ApiSettings) : List (String × String) :=
  let base := [("Content-Type", "application/json"),
    ("Accept", "text/event-stream, application/json")]
  if s.authType ≠ "None" ∧ s.apiKey ≠ "" then
    if s.authType = "Bearer" then base ++ [("Authorization", "Bearer " ++ s.apiKey)]
    else if s.authType = "ApiKey" then base ++ [("X-API-Key", s.apiKey)]
    else base
  else base

/-- Header lookup by name. -/
def hdrGet (k : String) : List (String × String) → Option String
  | [] => none
  | (k', v) :: rest => if k = k' then some v else hdrGet k rest

/-- Outcome of the single `fetch` performed by `callApi`. -/
inductive TransportResult where
  | success (contentType : Option String) (bodyText : String)
  | httpFail (status : Nat) (statusText : String) (bodyText : String)
  | abortErr
  | fetchFail (message : String)

/-- A thrown JavaScript error as observed by the `catch` clause: its
`name` and `message`. -/
structure JsErr where
  name : String
  message : String

/-- The message of the error thrown for a non-2xx response
(visual.ts line 352). -/
def httpStatusMessage (status : Nat) (statusText bodyText : String) : String :=
  "API调用失败 (" ++ toString status ++ "): " ++ statusText ++ ". " ++ bodyText

/-- Message substituted for an `AbortError` (timeout). -/
def timeoutMessage : String :=
  "请求超时，请检查网络连接或API响应速度"

/-- Message substituted for a failed fetch, carrying the diagnostics
report. -/
def networkFailMessage (diagnostics : String) : String :=
  "网络连接失败\n\n诊断信息：\n" ++ diagnostics ++
    "\n\n请检查：\n1. API URL是否正确\n2. 网络连接是否正常\n3. API是否支持CORS跨域请求\n4. PowerBI网络策略设置"

/-- Message substituted when the caught message mentions CORS. -/
def corsMessage : String :=
  "跨域请求被阻止，请确保API Gateway配置了正确的CORS策略"

/-- Message substituted when the caught message mentions TypeError. -/
def badConfigMessage : String :=
  "请求配置错误，请检查API URL格式和请求参数"

/-- The `ConfigError` message thrown for an empty endpoint URL
(visual.ts line 310). -/
def configErrorMessage : String :=
  "请先配置API URL"

/-- `contentType && contentType.includes(sub)`. -/
def ctIncludes (ct : Option String) (sub : String) : Bool :=
  match ct with
  | some c => strIncludes c sub
  | none => false

/-- The body of the `try` block of `callApi` after the fetch resolves
(visual.ts lines 350-430): HTTP status check, then content-type dispatch
to the stream decoder, the JSON classifier, or plain text. -/
def callApiTryBody (tr : TransportResult) : Except JsErr String :=
  match tr with
  | .httpFail status statusText body => .error ⟨"Error", httpStatusMessage status statusText body⟩
  | .abortErr => .error ⟨"AbortError", "The user aborted a request."⟩
  | .fetchFail m => .error ⟨"TypeError", m⟩
  | .success ct body =>
    if ctIncludes ct "text/event-stream" then
      -- the response is re-created from the already-read text, so the
      -- stream decoder receives the whole body as one chunk
      .ok (handleStreamResponse [body]).1
    else if ctIncludes ct "application/json" || ctIncludes ct "text/plain" then
      match parseJson body with
      | none => .ok body
      | some data =>
        match data with
        | .jnull =>
          -- JSON.parse("null") succeeds and the subsequent property
          -- access data.statusCode throws a TypeError
          .error ⟨"TypeError", "Cannot read properties of null (reading 'statusCode')"⟩
        | _ =>
          match classifyJson data with
          | .success t => .ok t
          | .apiError m => .error ⟨"Error", m⟩
    else .ok (if body = "" then "收到响应，但内容为空" else body)

/-- The `catch` clause of `callApi` (visual.ts lines 432-444), rewriting
the caught error into a categorized message. -/
def callApiCatch (diagnostics : String) (e : JsErr) : String :=
  if e.name = "AbortError" then timeoutMessage
  else if strIncludes e.message "Failed to fetch" then networkFailMessage diagnostics
  else if strIncludes e.message "CORS" then corsMessage
  else if strIncludes e.message "TypeError" then badConfigMessage
  else e.message

/-- Observable outcome of one `callApi` call: how often the transport
(fetch) ran, the headers it was given, and the result or thrown message. -/
structure CallOutcome where
  transportCalls : Nat
  headersSent : Option (List (String × String))
  result : Except String String

/-- `callApi`: the empty-URL guard precedes the `try` block and any
fetch; otherwise the transport runs exactly once with the built headers,
and its outcome passes through the `catch` rewriting.  `diagnostics`
stands for the wall-clock-dependent `performNetworkDiagnostics()` text. -/
def callApi (s : ApiSettings) (transport : List (String × String) → TransportResult)
    (diagnostics : String) : CallOutcome :=
  if s.apiUrl = "" then ⟨0, none, .error configErrorMessage⟩
  else
    let headers := buildHeaders s
    match callApiTryBody (transport headers) with
    | .ok t => ⟨1, some headers, .ok t⟩
    | .error e => ⟨1, some headers, .error (callApiCatch diagnostics e)⟩

/-! ## Simulated typing playback (`simulateTypingEffect`, visual.ts
lines 632-647) -/

/-- One update callback of the playback: the cumulative text shown and
the randomized delay slept after it (`Math.random() * 100 + 50`). -/
structure TypingEvent where
  text : String
  delay : ℚ
  deriving DecidableEq

/-- The playback loop: `currentText += (i > 0 ? ' ' : '') + words[i]`,
one `updateMessageWithTyping` callback per word, one random draw per
iteration. -/
def simulateTypingAux (rand : Nat → ℚ) : List String → String → Nat → List TypingEvent
  | [], _, _ => []
  | w :: ws, cur, i =>
    let cur' := cur ++ ((if 0 < i then " " else "") ++ w)
    ⟨cur', rand i * 100 + 50⟩ :: simulateTypingAux rand ws cur' (i + 1)

/-- `text.split(' ')` of the playback engine. -/
def strSplitSpace (text : String) : List String :=
  (charsSplitOn ' ' text.toList).map String.mk

/-- `simulateTypingEffect(messageId, text)`: the per-word update events
and the final text passed to `finishTyping`.  `rand` supplies the
`Math.random()` draws. -/
def simulateTypingEffect (text : String) (rand : Nat → ℚ) : List TypingEvent × String :=
  (simulateTypingAux rand (strSplitSpace text) "" 0, text)

/-! ## Settings update (`update`, visual.ts lines 659-668) -/

/-- The `objects.apiSettings` payload of a host update; each field may be
absent. -/
structure UpdatePayload where
  apiUrl : Option String
  apiKey : Option String
  authType : Option String
  deriving DecidableEq

/-- `x as string || dflt`: an absent or empty (falsy) field yields the
default. -/
def jsStrOr (v : Option String) (dflt : String) : String :=
  match v with
  | some s => if s = "" then dflt else s
  | none => dflt

/-- `update(options)` restricted to its effect on `apiSettings`: nothing
changes unless the payload carries an `apiSettings` object. -/
def update (cur : ApiSettings) (payload : Option UpdatePayload) : ApiSettings :=
  match payload with
  | none => cur
  | some p => ⟨jsStrOr p.apiUrl "", jsStrOr p.apiKey "", jsStrOr p.authType "Bearer"⟩


/-! ## Reference definitions written from the specification's words

These are not translations of the source; they state what the spec (or a
claim) asserts, for comparison with the translated definitions above. -/

/-- The first syntactically present candidate, regardless of truthiness
("the first present field among ..."). -/
def firstPresent : List (Option JsonVal) → Option JsonVal
  | [] => none
  | some v :: _ => some v
  | none :: rest => firstPresent rest

/-- Modelled from claim C1's words: the exchange succeeds when the object
signals 200/success or has no explicit `error` field; the reply text is
the first present field among the five candidates, with the serialized
object as fallback; only an error field or a non-200 status yields an
ApiError from the error/message field or a synthesized status
description. -/
def specClassify (data : JsonVal) : ClassifyResult :=
  if jsonSignalsSuccess data || (jsonGet data "error").isNone then
    .success
      (match firstPresent [jsonGet data "response", jsonGet data "message",
          jsonGet data "reply", jsonGet data "content", jsonGet data "text"] with
       | some v => jsToString v
       | none => jsonStringify data)
  else
    .apiError
      (match firstPresent [jsonGet data "error", jsonGet data "message"] with
       | some v => jsToString v
       | none =>
         "API返回错误状态: " ++
           match firstPresent [jsonGet data "statusCode", jsonGet data "status"] with
           | some v => jsToString v
           | none => "undefined")

/-- The amended two-branch classification: success exactly when
`statusCode === 200`, `status === 200` or `success === true`; the reply
text is the first truthy candidate with the fixed sentinel as fallback;
every other object yields an ApiError built by the error-message chain.
The translated `classifyJson` is proved equal to this, which shows the
serialize-the-object branch of the source unreachable. -/
def specClassifyAmended (data : JsonVal) : ClassifyResult :=
  if jsonSignalsSuccess data then
    .success
      (match replyCandidates data with
       | some v => jsToString v
       | none => "收到回复，但内容为空")
  else
    .apiError (classifyErrorMessage data)

/-- Modelled from the spec's words for the playback engine: "splits the
text on whitespace into tokens". -/
def specWhitespaceTokens (text : String) : List String :=
  (charsSplitPred jsIsSpace text.toList).map String.mk

/-- The cumulative reveal continuing from an already shown text: each
step appends a space and the next word. -/
def revealFrom (cur : String) : List String → List String
  | [] => []
  | w :: ws => (cur ++ " " ++ w) :: revealFrom (cur ++ " " ++ w) ws

/-- The expected sequence of cumulative update texts for a word list. -/
def spaceReveal : List String → List String
  | [] => []
  | w :: ws => w :: revealFrom w ws

/-- A fixed random source used to instantiate playback theorems. -/
def halfRand : Nat → ℚ := fun _ => 1 / 2

/-- The prefix-monotonicity invariant of the stream decoder state: the
fragment callbacks so far form a chain of string prefixes, each a prefix
of the text assembled so far. -/
def StreamInv (st : StreamState) : Prop :=
  List.Chain' (fun a b => a.toList <+: b.toList) st.fragments ∧
  ∀ f ∈ st.fragments, f.toList <+: st.fullResponse.toList


/-! ## Helper lemmas: retry controller -/

/-- One unfolding step of the attempt loop. -/
lemma callApiWithRetryAux_step (transport : Nat → Except String String) (maxR fuel attempt invs : Nat)
    (delaysRev : List Nat) (lastErr : Option String) :
    callApiWithRetryAux transport maxR (fuel + 1) attempt invs delaysRev lastErr =
      match transport attempt with
      | .ok s => ⟨invs + 1, delaysRev.reverse, .ok s⟩
      | .error e =>
        if isRetryableMsg e ∧ attempt < maxR then
          callApiWithRetryAux transport maxR fuel (attempt + 1) (invs + 1)
            (backoffDelay attempt :: delaysRev) (some e)
        else ⟨invs + 1, delaysRev.reverse, .error (some e)⟩ := rfl

/-- The loop step when the current attempt succeeds. -/
lemma callApiWithRetryAux_stepOk (transport : Nat → Except String String)
    (maxR fuel attempt invs : Nat) (delaysRev : List Nat) (lastErr : Option String)
    (s : String) (he : transport attempt = Except.ok s) :
    callApiWithRetryAux transport maxR (fuel + 1) attempt invs delaysRev lastErr =
      ⟨invs + 1, delaysRev.reverse, .ok s⟩ := by
  rw [callApiWithRetryAux_step, he]

/-- The loop step when the current attempt fails. -/
lemma callApiWithRetryAux_stepErr (transport : Nat → Except String String)
    (maxR fuel attempt invs : Nat) (delaysRev : List Nat) (lastErr : Option String)
    (e' : String) (he : transport attempt = Except.error e') :
    callApiWithRetryAux transport maxR (fuel + 1) attempt invs delaysRev lastErr =
      if isRetryableMsg e' ∧ attempt < maxR then
        callApiWithRetryAux transport maxR fuel (attempt + 1) (invs + 1)
          (backoffDelay attempt :: delaysRev) (some e')
      else ⟨invs + 1, delaysRev.reverse, .error (some e')⟩ := by
  rw [callApiWithRetryAux_step, he]

/-- Splitting off the first backoff delay of a range of delays. -/
lemma backoffDelay_range_cons (attempt m : Nat) :
    (List.range (m + 1)).map (fun j => backoffDelay (attempt + j)) =
      backoffDelay attempt :: (List.range m).map (fun j => backoffDelay (attempt + 1 + j)) := by
  rw [List.range_succ_eq_map, List.map_cons, List.map_map]
  refine congrArg₂ _ (congrArg _ (by omega)) (List.map_congr_left fun j _ => ?_)
  simp only [Function.comp_apply, Nat.succ_eq_add_one]
  exact congrArg _ (by omega)

/-- A transport that fails with a retryable message on every attempt
drives the loop through all remaining attempts: one invocation per
attempt, the scheduled backoff before each later attempt, and the final
attempt's error as outcome. -/
lemma callApiWithRetryAux_allFail (e : Nat → String) (maxR : Nat)
    (hretry : ∀ k, isRetryableMsg (e k) = true) :
    ∀ fuel attempt invs delaysRev lastErr, attempt + fuel = maxR →
      callApiWithRetryAux (fun k => Except.error (e k)) maxR (fuel + 1) attempt invs delaysRev
          lastErr =
        ⟨invs + fuel + 1,
          delaysRev.reverse ++ (List.range fuel).map (fun j => backoffDelay (attempt + j)),
          .error (some (e maxR))⟩ := by
  intro fuel
  induction fuel with
  | zero =>
    intro attempt invs delaysRev lastErr h
    rw [callApiWithRetryAux_stepErr _ _ _ _ _ _ _ (e attempt) rfl]
    rw [if_neg (by rintro ⟨-, hlt⟩; omega)]
    have ha : attempt = maxR := by omega
    subst ha
    simp
  | succ m ih =>
    intro attempt invs delaysRev lastErr h
    rw [callApiWithRetryAux_stepErr _ _ _ _ _ _ _ (e attempt) rfl]
    rw [if_pos ⟨hretry attempt, by omega⟩]
    rw [ih (attempt + 1) (invs + 1) (backoffDelay attempt :: delaysRev) (some (e attempt))
      (by omega)]
    have harr : (backoffDelay attempt :: delaysRev).reverse ++
        (List.range m).map (fun j => backoffDelay (attempt + 1 + j)) =
        delaysRev.reverse ++ (List.range (m + 1)).map (fun j => backoffDelay (attempt + j)) := by
      rw [List.reverse_cons, List.append_assoc, backoffDelay_range_cons]
      rfl
    rw [harr]
    congr 1
    omega

/-- Whatever the transport does, the delays recorded by the loop extend
the accumulator with consecutive backoff values starting at the current
attempt. -/
lemma callApiWithRetryAux_delays_shape (transport : Nat → Except String String) (maxR : Nat) :
    ∀ fuel attempt invs delaysRev lastErr, ∃ j,
      (callApiWithRetryAux transport maxR fuel attempt invs delaysRev lastErr).delays =
        delaysRev.reverse ++ (List.range j).map (fun i => backoffDelay (attempt + i)) := by
  intro fuel
  induction fuel with
  | zero =>
    intro attempt invs delaysRev lastErr
    exact ⟨0, by simp [callApiWithRetryAux]⟩
  | succ m ih =>
    intro attempt invs delaysRev lastErr
    cases he : transport attempt with
    | ok s =>
      rw [callApiWithRetryAux_stepOk _ _ _ _ _ _ _ s he]
      exact ⟨0, by simp⟩
    | error e' =>
      rw [callApiWithRetryAux_stepErr _ _ _ _ _ _ _ e' he]
      by_cases hc : isRetryableMsg e' = true ∧ attempt < maxR
      · rw [if_pos hc]
        obtain ⟨j, hj⟩ := ih (attempt + 1) (invs + 1) (backoffDelay attempt :: delaysRev) (some e')
        refine ⟨j + 1, ?_⟩
        rw [hj, List.reverse_cons, List.append_assoc, backoffDelay_range_cons]
        rfl
      · rw [if_neg hc]
        exact ⟨0, by simp⟩

/-- Claim C3: for every `maxAttempts = n ≥ 1`, a transport failing with a
network (retryable) error on every attempt is invoked exactly `n` times,
and the exchange surfaces the error of the n-th (last) attempt. -/
theorem callApiWithRetry_allNetworkFail (n : Nat) (e : Nat → String)
    (hn : 1 ≤ n) (hretry : ∀ k, isRetryableMsg (e k) = true) :
    (callApiWithRetry (fun k => Except.error (e k)) n).invocations = n ∧
    (callApiWithRetry (fun k => Except.error (e k)) n).outcome = Except.error (some (e n)) := by
  obtain ⟨m, rfl⟩ : ∃ m, n = m + 1 := ⟨n - 1, by omega⟩
  unfold callApiWithRetry
  rw [callApiWithRetryAux_allFail e (m + 1) hretry m 1 0 [] none (by omega)]
  exact ⟨by simp, rfl⟩

/-- Witness for C3 at a concrete always-failing transport and n = 2. -/
theorem callApiWithRetry_allNetworkFail_witness :
    (callApiWithRetry (fun _ => Except.error "网络连接失败") 2).invocations = 2 ∧
    (callApiWithRetry (fun _ => Except.error "网络连接失败") 2).outcome =
      Except.error (some "网络连接失败") :=
  callApiWithRetry_allNetworkFail 2 (fun _ => "网络连接失败") (by omega)
    (by intro k; show isRetryableMsg "网络连接失败" = true; decide)

/-- Claim C4 counterexample: an HttpError whose error body contains the
substring 网络连接失败 is retried, so with `maxAttempts = 2` the transport
runs twice, not once as the claim demands for every status text and
error body. -/
theorem callApiWithRetry_httpError_retried :
    (callApiWithRetry
        (fun _ => Except.error (httpStatusMessage 500 "Internal Server Error" "网络连接失败")) 2).invocations = 2 ∧
    (1 : Nat) ≠ 2 := by
  exact ⟨by decide, by omega⟩

/-- Claim C4 (amended): an error whose message does not contain either
retry-trigger substring — which covers the fixed TimeoutError message and
every HttpError whose status text and body avoid those substrings —
propagates after exactly one transport invocation, for every
`maxAttempts ≥ 1`. -/
theorem callApiWithRetry_nonRetryable_propagates (transport : Nat → Except String String)
    (n : Nat) (m : String) (hn : 1 ≤ n) (h1 : transport 1 = Except.error m)
    (hf : strIncludes m "Failed to fetch" = false)
    (hc : strIncludes m "网络连接失败" = false) :
    ((callApiWithRetry transport n).invocations = 1 ∧
      (callApiWithRetry transport n).outcome = Except.error (some m)) ∧
    (strIncludes timeoutMessage "Failed to fetch" = false ∧
      strIncludes timeoutMessage "网络连接失败" = false) := by
  refine ⟨?_, by decide, by decide⟩
  obtain ⟨k, rfl⟩ : ∃ k, n = k + 1 := ⟨n - 1, by omega⟩
  unfold callApiWithRetry
  rw [callApiWithRetryAux_stepErr _ _ _ _ _ _ _ m h1]
  rw [if_neg (by rintro ⟨hr, -⟩; simp [isRetryableMsg, hf, hc] at hr)]
  exact ⟨rfl, rfl⟩

/-- Witness for C4 (amended) at a concrete HttpError transport. -/
theorem callApiWithRetry_nonRetryable_propagates_witness :
    ((callApiWithRetry (fun _ => Except.error (httpStatusMessage 404 "Not Found" "nope")) 3).invocations = 1 ∧
      (callApiWithRetry (fun _ => Except.error (httpStatusMessage 404 "Not Found" "nope")) 3).outcome =
        Except.error (some (httpStatusMessage 404 "Not Found" "nope"))) ∧
    (strIncludes timeoutMessage "Failed to fetch" = false ∧
      strIncludes timeoutMessage "网络连接失败" = false) :=
  callApiWithRetry_nonRetryable_propagates (fun _ => Except.error (httpStatusMessage 404 "Not Found" "nope"))
    3 (httpStatusMessage 404 "Not Found" "nope") (by omega) rfl (by decide) (by decide)

/-- Claim C5: whenever a backoff delay is waited before attempt `k`
(`k ≥ 2`), it equals `min(1000 * 2^(k-2), 5000)` milliseconds exactly. -/
theorem callApiWithRetry_backoffDelays (transport : Nat → Except String String)
    (n k d : Nat) (hk : 2 ≤ k)
    (hd : (callApiWithRetry transport n).delays.get? (k - 2) = some d) :
    d = min (1000 * 2 ^ (k - 2)) 5000 := by
  obtain ⟨j, hj⟩ := callApiWithRetryAux_delays_shape transport n n 1 0 [] none
  unfold callApiWithRetry at hd
  rw [hj] at hd
  simp only [List.reverse_nil, List.nil_append, List.get?_map] at hd
  have hlt : k - 2 < j := by
    by_contra hge
    rw [List.get?_eq_none.mpr (by simpa using Nat.le_of_not_lt hge)] at hd
    simp at hd
  rw [List.get?_range hlt] at hd
  simp only [Option.map_some'] at hd
  rw [← Option.some.inj hd]
  unfold backoffDelay
  have he2 : 1 + (k - 2) - 1 = k - 2 := by omega
  rw [he2]

/-- Witness for C5: the delay before attempt 5 of an always-failing run
with 5 attempts is the 5000 ms cap. -/
theorem callApiWithRetry_backoffDelays_witness :
    (2 : Nat) ≤ 5 ∧
    (callApiWithRetry (fun _ => Except.error "网络连接失败") 5).delays.get? 3 = some 5000 ∧
    (5000 : Nat) = min (1000 * 2 ^ 3) 5000 :=
  ⟨by omega, by decide,
    callApiWithRetry_backoffDelays (fun _ => Except.error "网络连接失败") 5 5 5000 (by omega) (by decide)⟩

/-! ## Claims on the response classifier and the stream decoder -/

/-- Claim C1 counterexample: the object `\x7b"message":"hi"\x7d` carries no
error field, so the claim classifies it as success with text "hi", but
the source's `data.statusCode !== 200` test sends it to the error branch
and throws `ApiError("hi")`. -/
theorem classifyJson_noErrorField :
    classifyJson (.jobj [("message", .jstr "hi")]) = ClassifyResult.apiError "hi" ∧
    specClassify (.jobj [("message", .jstr "hi")]) = ClassifyResult.success "hi" :=
  ⟨rfl, rfl⟩

/-- Claim C1 (amended): the classification succeeds exactly when
`statusCode === 200`, `status === 200` or `success === true`; the reply
text is the first truthy field among response/message/reply/content/text
with the fixed sentinel (not the serialized object) as fallback; every
other object — including objects with no error field — yields an
ApiError from the error/message field or a synthesized status
description.  The spec's two concrete classifier examples also hold. -/
theorem classifyJson_amended :
    (∀ data, classifyJson data = specClassifyAmended data) ∧
    classifyJson (.jobj [("statusCode", .jnum 200), ("response", .jstr "ok")]) =
      ClassifyResult.success "ok" ∧
    classifyJson (.jobj [("error", .jstr "bad input")]) = ClassifyResult.apiError "bad input" := by
  refine ⟨fun data => ?_, rfl, rfl⟩
  unfold classifyJson specClassifyAmended
  by_cases hs : jsonSignalsSuccess data = true
  · rw [if_pos hs, if_pos hs]
  · rw [if_neg hs, if_neg hs]
    have h200 : isNum200 (jsonGet data "statusCode") = false := by
      revert hs
      unfold jsonSignalsSuccess
      cases isNum200 (jsonGet data "statusCode") <;> simp
    rw [if_pos (by unfold jsonSignalsError; rw [h200]; simp)]

/-- Claim C2: the source comment marks `[DONE]` as the stream-end marker,
but the `break` leaves only the per-chunk line loop, so a payload that
arrives in a chunk after the `[DONE]` line is still decoded and appended:
here the decoder returns "hi" with a fragment callback, instead of the
empty pre-`[DONE]` text. -/
theorem handleStreamResponse_afterDone :
    handleStreamResponse ["data: [DONE]\n\n", "data: hi\n\n"] = ("hi", ["hi"]) ∧
    ("hi", ["hi"]).1 ≠ "收到空响应" :=
  ⟨rfl, by decide⟩

/-! ## Claims on `callApi` and the request builder -/

/-- Claim C6: an empty endpoint URL raises the ConfigError before the
`try` block, so the transport is never invoked, for every auth mode and
credential. -/
theorem callApi_emptyUrl_configError (s : ApiSettings)
    (transport : List (String × String) → TransportResult) (diagnostics : String)
    (h : s.apiUrl = "") :
    callApi s transport diagnostics = ⟨0, none, Except.error configErrorMessage⟩ := by
  simp [callApi, h]

/-- Witness for C6 at a concrete configuration with credentials set. -/
theorem callApi_emptyUrl_configError_witness :
    callApi ⟨"", "secret", "ApiKey"⟩ (fun _ => TransportResult.abortErr) "diag" =
      ⟨0, none, Except.error configErrorMessage⟩ :=
  callApi_emptyUrl_configError ⟨"", "secret", "ApiKey"⟩ (fun _ => TransportResult.abortErr)
    "diag" rfl

/-- Claim C7: Bearer mode with a non-empty credential sets
`Authorization: Bearer <credential>`; ApiKey mode sets `X-API-Key`; None
mode sets no auth header regardless of the credential; and a non-None
mode with an empty credential builds and sends the request without any
auth header and without an error. -/
theorem buildHeaders_auth (s : ApiSettings) :
    (s.authType = "Bearer" → s.apiKey ≠ "" →
      hdrGet "Authorization" (buildHeaders s) = some ("Bearer " ++ s.apiKey)) ∧
    (s.authType = "ApiKey" → s.apiKey ≠ "" →
      hdrGet "X-API-Key" (buildHeaders s) = some s.apiKey) ∧
    (s.authType = "None" →
      hdrGet "Authorization" (buildHeaders s) = none ∧
      hdrGet "X-API-Key" (buildHeaders s) = none) ∧
    (s.apiKey = "" →
      hdrGet "Authorization" (buildHeaders s) = none ∧
      hdrGet "X-API-Key" (buildHeaders s) = none ∧
      (s.apiUrl ≠ "" → ∀ transport diagnostics,
        (callApi s transport diagnostics).transportCalls = 1 ∧
        (callApi s transport diagnostics).headersSent = some (buildHeaders s))) := by
  refine ⟨?_, ?_, ?_, ?_⟩
  · intro h hk
    rw [buildHeaders]
    rw [if_pos ⟨by rw [h]; decide, hk⟩, if_pos h]
    simp [hdrGet]
  · intro h hk
    rw [buildHeaders]
    rw [if_pos ⟨by rw [h]; decide, hk⟩, if_neg (by rw [h]; decide), if_pos h]
    simp [hdrGet]
  · intro h
    rw [buildHeaders]
    rw [if_neg (by rw [h]; simp)]
    exact ⟨by simp [hdrGet], by simp [hdrGet]⟩
  · intro hk
    have hb : buildHeaders s = [("Content-Type", "application/json"),
        ("Accept", "text/event-stream, application/json")] := by
      rw [buildHeaders]
      rw [if_neg (by rw [hk]; simp)]
    refine ⟨by rw [hb]; simp [hdrGet], by rw [hb]; simp [hdrGet], ?_⟩
    intro hu transport diagnostics
    rw [callApi, if_neg hu]
    cases h' : callApiTryBody (transport (buildHeaders s)) <;> simp [h']

/-- Witness for C7 at a concrete Bearer configuration. -/
theorem buildHeaders_auth_witness :
    hdrGet "Authorization" (buildHeaders ⟨"http://x", "abc", "Bearer"⟩) =
      some ("Bearer " ++ "abc") :=
  (buildHeaders_auth ⟨"http://x", "abc", "Bearer"⟩).1 rfl (by decide)

/-! ## Helper lemmas: stream decoder invariant -/

/-- Appending strings concatenates their character lists. -/
lemma strToList_append (s t : String) : (s ++ t).toList = s.toList ++ t.toList := rfl

/-- Appending one fragment built from the current text keeps the
decoder's prefix invariant. -/
lemma streamInv_append (st : StreamState) (x : String) (h : StreamInv st) :
    StreamInv { st with fullResponse := st.fullResponse ++ x,
                        fragments := st.fragments ++ [st.fullResponse ++ x] } := by
  obtain ⟨hchain, hpfx⟩ := h
  constructor
  · rw [List.chain'_append]
    refine ⟨hchain, List.chain'_singleton _, ?_⟩
    intro a ha b hb
    simp only [List.head?_cons, Option.mem_def, Option.some.injEq] at hb
    subst hb
    obtain ⟨hne, hx⟩ := List.mem_getLast?_eq_getLast ha
    have hmem : a ∈ st.fragments := hx ▸ List.getLast_mem hne
    exact (hpfx a hmem).trans (by rw [strToList_append]; exact List.prefix_append _ _)
  · intro f hf
    rcases List.mem_append.mp hf with hf | hf
    · exact (hpfx f hf).trans (by rw [strToList_append]; exact List.prefix_append _ _)
    · simp only [List.mem_singleton] at hf
      subst hf
      exact List.prefix_refl _

/-- Processing the lines of a chunk keeps the prefix invariant. -/
lemma processLines_inv : ∀ (lines : List (List Char)) (st : StreamState),
    StreamInv st → StreamInv (processLines st lines) := by
  intro lines
  induction lines with
  | nil => intro st h; exact h
  | cons line rest ih =>
    intro st h
    simp only [processLines]
    split
    · exact ih st h
    · split
      · split
        · exact h
        · refine ih _ ?_
          split
          · split
            · exact streamInv_append st (jsToString _) h
            · exact h
          · split
            · exact h
            · exact streamInv_append st (String.mk (line.drop 6)) h
      · exact ih st h

/-- Consuming one chunk keeps the prefix invariant (the buffer plays no
part in it). -/
lemma processChunk_inv (st : StreamState) (chunk : String) (h : StreamInv st) :
    StreamInv (processChunk st chunk) :=
  processLines_inv _ _ ⟨h.1, h.2⟩

/-- The whole read loop keeps the prefix invariant. -/
lemma foldl_processChunk_inv : ∀ (chunks : List String) (st : StreamState),
    StreamInv st → StreamInv (chunks.foldl processChunk st) := by
  intro chunks
  induction chunks with
  | nil => intro st h; exact h
  | cons c rest ih => intro st h; exact ih _ (processChunk_inv st c h)

/-- Claim C8: the concrete three-chunk stream produces exactly the
cumulative callbacks "Hel" then "Hello" with final text "Hello"; and in
general every fragment callback extends the previous one — the callback
values form a chain of string prefixes, i.e. the decoder reports
cumulative text, not deltas. -/
theorem handleStreamResponse_cumulative :
    handleStreamResponse ["data: \x7b\"content\":\"Hel\"\x7d\n\n",
        "data: \x7b\"content\":\"lo\"\x7d\n\n", "data: [DONE]\n\n"] = ("Hello", ["Hel", "Hello"]) ∧
    ∀ chunks, List.Chain' (fun a b : String => a.toList <+: b.toList)
      (handleStreamResponse chunks).2 := by
  refine ⟨rfl, fun chunks => ?_⟩
  exact (foldl_processChunk_inv chunks ⟨[], "", []⟩ ⟨List.chain'_nil, by simp⟩).1

/-! ## Helper lemmas: simulated typing playback -/

/-- From the second word on, each update text extends the previous one by
a space and the next word. -/
lemma simulateTypingAux_text_reveal (rand : Nat → ℚ) :
    ∀ (ws : List String) (cur : String) (i : Nat), 1 ≤ i →
      (simulateTypingAux rand ws cur i).map TypingEvent.text = revealFrom cur ws := by
  intro ws
  induction ws with
  | nil => intro cur i _; rfl
  | cons w rest ih =>
    intro cur i hi
    simp only [simulateTypingAux, revealFrom, List.map_cons]
    rw [if_pos (by omega)]
    refine congrArg₂ _ (by rw [String.append_assoc]) ?_
    rw [← String.append_assoc]
    exact ih (cur ++ " " ++ w) (i + 1) (by omega)

/-- The full sequence of update texts is the cumulative reveal of the
space-separated words. -/
lemma simulateTypingEffect_texts (text : String) (rand : Nat → ℚ) :
    (simulateTypingEffect text rand).1.map TypingEvent.text = spaceReveal (strSplitSpace text) := by
  show (simulateTypingAux rand (strSplitSpace text) "" 0).map TypingEvent.text =
    spaceReveal (strSplitSpace text)
  cases hw : strSplitSpace text with
  | nil => rfl
  | cons w rest =>
    simp only [simulateTypingAux, spaceReveal, List.map_cons]
    rw [if_neg (by omega)]
    refine congrArg₂ _ rfl ?_
    have hempty : ("" : String) ++ ("" ++ w) = w := rfl
    rw [hempty]
    exact simulateTypingAux_text_reveal rand rest w 1 (by omega)

/-- Every delay drawn by the playback lies in the 50-150 ms band when the
random source lies in `[0, 1)`. -/
lemma simulateTypingAux_delay_bounds (rand : Nat → ℚ) (hr : ∀ i, 0 ≤ rand i ∧ rand i < 1) :
    ∀ (ws : List String) (cur : String) (i : Nat),
      ∀ ev ∈ simulateTypingAux rand ws cur i, 50 ≤ ev.delay ∧ ev.delay < 150 := by
  intro ws
  induction ws with
  | nil => intro cur i ev hev; simp [simulateTypingAux] at hev
  | cons w rest ih =>
    intro cur i ev hev
    simp only [simulateTypingAux, List.mem_cons] at hev
    rcases hev with hev | hev
    · subst hev
      obtain ⟨h0, h1⟩ := hr i
      constructor
      · show (50 : ℚ) ≤ rand i * 100 + 50
        nlinarith
      · show rand i * 100 + 50 < 150
        nlinarith
    · exact ih _ _ ev hev

/-- Claim C9 counterexample: the source splits on the space character
only, so on the tab-separated text "a\tb" the playback performs a single
update callback, while splitting on whitespace (the claim's wording)
yields two tokens. -/
theorem simulateTypingEffect_tab :
    (simulateTypingEffect "a\tb" (fun _ => 0)).1.map TypingEvent.text = ["a\tb"] ∧
    specWhitespaceTokens "a\tb" = ["a", "b"] ∧
    ((simulateTypingEffect "a\tb" (fun _ => 0)).1.map TypingEvent.text).length ≠
      (specWhitespaceTokens "a\tb").length := by
  exact ⟨rfl, rfl, by decide⟩

/-- Claim C9 (amended): on "a b c" the playback performs exactly 3 update
callbacks with the cumulative values "a", "a b", "a b c", in order; in
general it splits the text on the space character (not on arbitrary
whitespace) and reveals the cumulative prefixes progressively; each
inter-word delay is `rand * 100 + 50`, hence in `[50, 150)` for a random
source in `[0, 1)`; and the final text handed to `finishTyping` is the
whole input. -/
theorem simulateTypingEffect_spec (text : String) (rand : Nat → ℚ) :
    ((simulateTypingEffect "a b c" rand).1.map TypingEvent.text = ["a", "a b", "a b c"]) ∧
    ((simulateTypingEffect text rand).1.map TypingEvent.text = spaceReveal (strSplitSpace text)) ∧
    ((∀ i, 0 ≤ rand i ∧ rand i < 1) →
      ∀ ev ∈ (simulateTypingEffect text rand).1, 50 ≤ ev.delay ∧ ev.delay < 150) ∧
    (simulateTypingEffect text rand).2 = text := by
  refine ⟨rfl, simulateTypingEffect_texts text rand, ?_, rfl⟩
  intro hr ev hev
  exact simulateTypingAux_delay_bounds rand hr _ _ _ ev hev

/-- Witness for C9 (amended) at the sample text and the constant 1/2
random source. -/
theorem simulateTypingEffect_spec_witness :
    (∀ i, 0 ≤ halfRand i ∧ halfRand i < 1) ∧
    (∀ ev ∈ (simulateTypingEffect "a b c" halfRand).1, 50 ≤ ev.delay ∧ ev.delay < 150) := by
  have hr : ∀ i, 0 ≤ halfRand i ∧ halfRand i < 1 := fun i => by norm_num [halfRand]
  exact ⟨hr, (simulateTypingEffect_spec "a b c" halfRand).2.2.1 hr⟩

/-! ## Claim on the settings update -/

/-- Claim C10: a payload without an `apiSettings` object leaves all three
stored fields unchanged; a payload with one overwrites the stored record
independently of its previous value, each missing field defaulting
(`apiUrl`, `apiKey` to "", `authType` to "Bearer"). -/
theorem update_frame :
    (∀ cur, update cur none = cur) ∧
    (∀ cur cur' p, update cur (some p) = update cur' (some p)) ∧
    (∀ cur p, p.apiUrl = none → (update cur (some p)).apiUrl = "") ∧
    (∀ cur p, p.apiKey = none → (update cur (some p)).apiKey = "") ∧
    (∀ cur p, p.authType = none → (update cur (some p)).authType = "Bearer") := by
  refine ⟨fun cur => rfl, fun cur cur' p => rfl, ?_, ?_, ?_⟩ <;>
    · intro cur p h
      simp [update, jsStrOr, h]

/-- Witness for C10 at a concrete stored record and an empty payload. -/
theorem update_frame_witness :
    update ⟨"u", "k", "t"⟩ none = ⟨"u", "k", "t"⟩ ∧
    (update ⟨"u", "k", "t"⟩ (some ⟨none, none, none⟩)).authType = "Bearer" :=
  ⟨update_frame.1 ⟨"u", "k", "t"⟩,
    update_frame.2.2.2.2 ⟨"u", "k", "t"⟩ ⟨none, none, none⟩ rfl⟩
